import Mathlib

/-!
Verification of the arena (linear bump) allocator implemented in src/arena.c
of the vulkan-triangle repository.

The C code works on size_t and uintptr_t values; the modeled platform is
LP64, so both types are 64 bits wide and all of their arithmetic wraps
modulo 2 ^ 64.  Machine integers are embedded as Nat with explicit
reduction modulo W = 2 ^ 64 wherever the C computation can wrap.  The byte
contents of the caller-supplied buffer are modeled as a function from
buffer offsets to byte values, threaded through the allocation function
exactly where the C code calls memset.  A returned pointer
p = &arena->buffer[offset] is represented by its offset from the buffer
base; NULL is represented by none.
-/

namespace ArenaSpec

/-- Word modulus of the modeled platform: size_t and uintptr_t arithmetic
in the C source wraps modulo 2 ^ 64. -/
def W : Nat := 2 ^ 64

/-- Wrapping (unsigned) subtraction of machine words, modeling the C
expression x - y on size_t or uintptr_t operands. -/
def wsub (x y : Nat) : Nat := (x + (W - y % W)) % W

/-- Source: is_power_of_two, arena.c lines 13-17:
return (x & (x - 1)) == 0.  For x = 0 the subtraction x - 1 wraps to
2 ^ 64 - 1. -/
def is_power_of_two (x : Nat) : Bool := x &&& wsub x 1 == 0

/-- Source: align, arena.c lines 19-32 (release build, without the
assertion): m = p & (a - 1); if (m != 0) p += a - m; return p.  The
uintptr_t additions and subtractions wrap modulo W. -/
def align (pointer alignment : Nat) : Nat :=
  let p := pointer
  let a := alignment
  let m := p &&& wsub a 1
  if m ≠ 0 then (p + wsub a m) % W else p

/-- Debug build of align: arena.c line 21 asserts
is_power_of_two(alignment) before computing.  The value none models the
fatal trap of a failed assertion; some models the assertion passing and
the function returning normally. -/
def align_checked (pointer alignment : Nat) : Option Nat :=
  if is_power_of_two alignment then some (align pointer alignment) else none

/-- Source: struct Arena, arena.h.  buffer is the base address (the
uintptr_t value of the unsigned char pointer); the pointed-to bytes are
modeled separately. -/
structure Arena where
  buffer : Nat
  buffer_length : Nat
  previous_offset : Nat
  current_offset : Nat
deriving DecidableEq, Repr

/-- Source: struct Arena_Checkpoint, arena.h.  The C struct also stores
the pointer to the arena it was taken from; in this functional model the
referenced arena is passed explicitly to arena_restore. -/
structure Arena_Checkpoint where
  previous_offset : Nat
  current_offset : Nat
deriving DecidableEq, Repr

/-- Source: the call memset(p, 0, size) at arena.c line 49, expressed on
buffer offsets: bytes at offsets off, ..., off + n - 1 become zero and
every other byte is unchanged. -/
def memset (mem : Nat → Nat) (off n : Nat) : Nat → Nat :=
  fun i => if off ≤ i ∧ i < off + n then 0 else mem i

/-- Source: arena.c lines 38-41, the offset computation of
arena_alloc_align: the absolute cursor address buffer + current_offset is
aligned, then the buffer base is subtracted again; all uintptr_t
arithmetic wraps modulo W. -/
def allocOffset (a : Arena) (alignment : Nat) : Nat :=
  wsub (align ((a.buffer + a.current_offset) % W) alignment) a.buffer

/-- Source: arena_alloc_align, arena.c lines 34-54.  Result: the returned
pointer (as an offset from the buffer base, none for NULL), the updated
arena, and the updated buffer contents.  The capacity check
offset + size <= buffer_length adds two size_t values, so the sum is
taken modulo W. -/
def arena_alloc_align (arena : Arena) (mem : Nat → Nat) (size alignment : Nat) :
    Option Nat × Arena × (Nat → Nat) :=
  let offset := allocOffset arena alignment
  if (offset + size) % W ≤ arena.buffer_length then
    (some offset,
     { arena with previous_offset := offset, current_offset := (offset + size) % W },
     memset mem offset size)
  else
    (none, arena, mem)

/-- Source: DEFAULT_ALIGNMENT, arena.c line 10: sizeof(void *) * 2, which
is 16 on the modeled LP64 platform. -/
def DEFAULT_ALIGNMENT : Nat := 16

/-- Source: arena_alloc, arena.c lines 56-60. -/
def arena_alloc (arena : Arena) (mem : Nat → Nat) (size : Nat) :
    Option Nat × Arena × (Nat → Nat) :=
  arena_alloc_align arena mem size DEFAULT_ALIGNMENT

/-- Source: arena_init, arena.c lines 62-69. -/
def arena_init (buffer buffer_length : Nat) : Arena :=
  { buffer := buffer, buffer_length := buffer_length,
    previous_offset := 0, current_offset := 0 }

/-- Source: arena_free, arena.c lines 71-76. -/
def arena_free (arena : Arena) : Arena :=
  { arena with current_offset := 0, previous_offset := 0 }

/-- Source: arena_create_checkpoint, arena.c lines 78-86. -/
def arena_create_checkpoint (arena : Arena) : Arena_Checkpoint :=
  { previous_offset := arena.previous_offset,
    current_offset := arena.current_offset }

/-- Source: arena_restore, arena.c lines 88-93.  The C checkpoint carries
the arena pointer; here the referenced arena is the second argument and
the updated arena is returned. -/
def arena_restore (checkpoint : Arena_Checkpoint) (arena : Arena) : Arena :=
  { arena with previous_offset := checkpoint.previous_offset,
               current_offset := checkpoint.current_offset }

/-! Basic facts about the word modulus and the alignment computation. -/

theorem W_eq : W = 18446744073709551616 := by norm_num [W]

theorem W_pos : 0 < W := by rw [W_eq]; omega

/-- Exact (unbounded-arithmetic) padding that rounding the absolute address
b + c up to a multiple of a inserts before an allocation. -/
def padOf (b c a : Nat) : Nat := (a - (b + c) % a) % a

/-- On inputs below the word modulus, align computes exactly the usual
round-up-to-a-multiple expression, reduced modulo W. -/
theorem align_eq_exact (p a : Nat) (ha : 0 < a) (haW : a ∣ W) (hp : p < W) :
    align p a = (p + (a - p % a) % a) % W := by
  have haw : a ≤ W := Nat.le_of_dvd W_pos haW
  have h1 : wsub a 1 = a - 1 := by
    unfold wsub; rw [W_eq] at *; omega
  have haW2 : a ∣ 2 ^ 64 := haW
  obtain ⟨e, _, rfl⟩ := (Nat.dvd_prime_pow Nat.prime_two).mp haW2
  simp only [align, h1, Nat.and_pow_two_sub_one_eq_mod]
  by_cases hm : p % 2 ^ e = 0
  · simp [hm, Nat.mod_eq_of_lt hp]
  · have hlt : p % 2 ^ e < 2 ^ e := Nat.mod_lt _ ha
    have h2 : wsub (2 ^ e) (p % 2 ^ e) = 2 ^ e - p % 2 ^ e := by
      unfold wsub; rw [W_eq] at *; omega
    have h3 : (2 ^ e - p % 2 ^ e) % 2 ^ e = 2 ^ e - p % 2 ^ e :=
      Nat.mod_eq_of_lt (Nat.sub_lt ha (Nat.pos_of_ne_zero hm))
    rw [if_pos hm, h2, h3]

/-- The exact round-up value is a multiple of the alignment. -/
theorem dvd_alignUp (p a : Nat) (ha : 0 < a) : a ∣ (p + (a - p % a) % a) := by
  by_cases hm : p % a = 0
  · simpa [hm] using Nat.dvd_of_mod_eq_zero hm
  · have h := Nat.div_add_mod p a
    have hlt : p % a < a := Nat.mod_lt _ ha
    have h3 : (a - p % a) % a = a - p % a :=
      Nat.mod_eq_of_lt (Nat.sub_lt ha (Nat.pos_of_ne_zero hm))
    refine ⟨p / a + 1, ?_⟩
    rw [h3, Nat.mul_add, Nat.mul_one]
    omega

/-- The exact round-up value is the least multiple of the alignment that is
greater than or equal to p. -/
theorem alignUp_least (p a q : Nat) (ha : 0 < a) (hq : a ∣ q) (hpq : p ≤ q) :
    p + (a - p % a) % a ≤ q := by
  by_contra hlt
  push_neg at hlt
  have hd : a ∣ (p + (a - p % a) % a - q) := Nat.dvd_sub' (dvd_alignUp p a ha) hq
  have hpad : (a - p % a) % a < a := Nat.mod_lt _ ha
  have := Nat.le_of_dvd (by omega) hd
  omega

/-- When the exact aligned cursor does not overflow a machine word, the offset
computed by arena_alloc_align equals old cursor plus exact padding. -/
theorem allocOffset_eq (b len prev c a : Nat) (ha : 0 < a) (haW : a ∣ W)
    (hc : c < W) (hnw : c + padOf b c a < W) :
    allocOffset ⟨b, len, prev, c⟩ a = c + padOf b c a := by
  unfold allocOffset padOf at *
  dsimp only
  have hp : (b + c) % W < W := Nat.mod_lt _ W_pos
  rw [align_eq_exact _ _ ha haW hp, Nat.mod_mod_of_dvd _ haW]
  unfold wsub
  rw [W_eq] at *
  generalize (a - (b + c) % a) % a = pad at *
  omega

/-- Success case of arena_alloc_align: when the exactly computed aligned
offset plus size fits in the buffer, the call returns that offset, advances
previous_offset and current_offset, and zeroes the granted range. -/
theorem alloc_succ (b len prev c size a : Nat) (mem : Nat → Nat)
    (ha : 0 < a) (haW : a ∣ W) (hc : c < W) (hlen : len < W)
    (hfit : c + padOf b c a + size ≤ len) :
    arena_alloc_align ⟨b, len, prev, c⟩ mem size a =
      (some (c + padOf b c a),
       ⟨b, len, c + padOf b c a, c + padOf b c a + size⟩,
       memset mem (c + padOf b c a) size) := by
  have hoff : allocOffset ⟨b, len, prev, c⟩ a = c + padOf b c a :=
    allocOffset_eq b len prev c a ha haW hc (by omega)
  unfold arena_alloc_align
  rw [hoff]
  dsimp only
  have hmod : (c + padOf b c a + size) % W = c + padOf b c a + size :=
    Nat.mod_eq_of_lt (by rw [W_eq] at *; omega)
  rw [hmod, if_pos hfit]

/-- Failure case of arena_alloc_align: when the exactly computed aligned
offset plus size does not overflow but exceeds the buffer length, the call
returns NULL and leaves the arena and the memory unchanged. -/
theorem alloc_fail (b len prev c size a : Nat) (mem : Nat → Nat)
    (ha : 0 < a) (haW : a ∣ W) (hc : c < W)
    (hnw : c + padOf b c a + size < W) (hlen : len < c + padOf b c a + size) :
    arena_alloc_align ⟨b, len, prev, c⟩ mem size a = (none, ⟨b, len, prev, c⟩, mem) := by
  have hoff : allocOffset ⟨b, len, prev, c⟩ a = c + padOf b c a :=
    allocOffset_eq b len prev c a ha haW hc (by omega)
  unfold arena_alloc_align
  rw [hoff]
  dsimp only
  have hmod : (c + padOf b c a + size) % W = c + padOf b c a + size :=
    Nat.mod_eq_of_lt hnw
  rw [hmod, if_neg (by omega)]

/-- Result of align is always below the word modulus when its input is. -/
theorem align_lt (p a : Nat) (hp : p < W) : align p a < W := by
  unfold align
  dsimp only
  split
  · exact Nat.mod_lt _ W_pos
  · exact hp

/-- The aligned result is a multiple of a power-of-two alignment. -/
theorem dvd_align (p a : Nat) (ha : 0 < a) (haW : a ∣ W) (hp : p < W) :
    a ∣ align p a := by
  rw [align_eq_exact p a ha haW hp]
  exact (Nat.dvd_mod_iff haW).mpr (dvd_alignUp p a ha)

/-- The offset computed by arena_alloc_align is below the word modulus. -/
theorem allocOffset_lt (a : Arena) (alignment : Nat) : allocOffset a alignment < W := by
  unfold allocOffset wsub
  exact Nat.mod_lt _ W_pos

/-- Adding the buffer base back to the computed offset recovers exactly the
aligned absolute address (modulo W). -/
theorem buffer_add_allocOffset (a : Arena) (alignment : Nat) :
    (a.buffer + allocOffset a alignment) % W
      = align ((a.buffer + a.current_offset) % W) alignment := by
  have hX : align ((a.buffer + a.current_offset) % W) alignment < W :=
    align_lt _ _ (Nat.mod_lt _ W_pos)
  unfold allocOffset wsub
  generalize align ((a.buffer + a.current_offset) % W) alignment = X at *
  rw [W_eq] at *
  omega

/-! Claims. -/

/-- Claim C2: when the capacity check of arena_alloc_align fails, that is
when the size_t sum of the aligned offset and the requested size exceeds
buffer_length, the call returns NULL and previous_offset and current_offset
(indeed the whole arena, and the buffer contents) keep exactly their
pre-call values. -/
theorem c2_insufficient_capacity_fails_unchanged (a : Arena) (mem : Nat → Nat)
    (size alignment : Nat)
    (h : a.buffer_length < (allocOffset a alignment + size) % W) :
    arena_alloc_align a mem size alignment = (none, a, mem) := by
  unfold arena_alloc_align
  dsimp only
  rw [if_neg (by omega)]

/-- Witness for C2: offsets (16, 21) in a 64-byte buffer at base 0, request
of 50 bytes at alignment 16; the aligned offset is 32 and 32 + 50 = 82
exceeds 64, so the call fails and changes nothing. -/
theorem c2_witness :
    (Arena.mk 0 64 16 21).buffer_length
        < (allocOffset (Arena.mk 0 64 16 21) 16 + 50) % W ∧
    arena_alloc_align (Arena.mk 0 64 16 21) (fun _ => 0) 50 16
      = (none, Arena.mk 0 64 16 21, fun _ => 0) :=
  ⟨by decide, c2_insufficient_capacity_fails_unchanged _ _ _ _ (by decide)⟩

/-- Claim C3: immediately after a successful arena_alloc_align call, every
one of the size bytes of the returned region is zero. -/
theorem c3_returned_region_zeroed (a : Arena) (mem : Nat → Nat)
    (size alignment off i : Nat)
    (h : (arena_alloc_align a mem size alignment).1 = some off)
    (hi : i < size) :
    (arena_alloc_align a mem size alignment).2.2 (off + i) = 0 := by
  unfold arena_alloc_align at *
  dsimp only at *
  by_cases hc : (allocOffset a alignment + size) % W ≤ a.buffer_length
  · rw [if_pos hc] at h ⊢
    simp only [Option.some.injEq] at h
    subst h
    simp only [memset]
    rw [if_pos (by omega)]
  · rw [if_neg hc] at h
    simp at h

/-- Witness for C3: a fresh 64-byte arena, buffer contents all 7, a
successful 10-byte allocation at offset 0; byte 3 of the region is zero. -/
theorem c3_witness :
    (arena_alloc_align (Arena.mk 0 64 0 0) (fun _ => 7) 10 16).1 = some 0 ∧
    3 < 10 ∧
    (arena_alloc_align (Arena.mk 0 64 0 0) (fun _ => 7) 10 16).2.2 (0 + 3) = 0 :=
  ⟨by decide, by decide,
   c3_returned_region_zeroed _ _ _ _ _ _ (by decide) (by decide)⟩

/-- Claim C4: on success with a power-of-two alignment, the starting address
of the returned region, buffer + offset as a uintptr_t value (hence reduced
modulo W), is congruent to 0 modulo the alignment.  Power-of-two values
representable in a machine word are exactly the positive divisors of W. -/
theorem c4_returned_address_aligned (a : Arena) (mem : Nat → Nat)
    (size alignment off : Nat)
    (ha : 0 < alignment) (haW : alignment ∣ W)
    (h : (arena_alloc_align a mem size alignment).1 = some off) :
    alignment ∣ (a.buffer + off) % W := by
  have hoffeq : off = allocOffset a alignment := by
    unfold arena_alloc_align at h
    dsimp only at h
    by_cases hc : (allocOffset a alignment + size) % W ≤ a.buffer_length
    · rw [if_pos hc] at h
      simp only [Option.some.injEq] at h
      omega
    · rw [if_neg hc] at h
      simp at h
  subst hoffeq
  rw [buffer_add_allocOffset]
  exact dvd_align _ _ ha haW (Nat.mod_lt _ W_pos)

/-- Witness for C4: arena based at address 32 with cursor 21, alignment 16,
size 5: the call succeeds at offset 32 and the address 32 + 32 = 64 is a
multiple of 16. -/
theorem c4_witness :
    (0 : Nat) < 16 ∧ (16 : Nat) ∣ W ∧
    (arena_alloc_align (Arena.mk 32 64 0 21) (fun _ => 0) 5 16).1 = some 32 ∧
    (16 : Nat) ∣ ((Arena.mk 32 64 0 21).buffer + 32) % W :=
  ⟨by decide, by decide, by decide,
   c4_returned_address_aligned (Arena.mk 32 64 0 21) (fun _ => 0) 5 16 32
     (by decide) (by decide) (by decide)⟩

/-- Claim C6 (amended): align is pure (it is a function of its arguments in
this embedding, with no state), and whenever the exact rounded-up value
does not overflow a machine word it returns the smallest value greater than
or equal to the address that is a multiple of the power-of-two alignment.
When the rounded-up value would reach 2 ^ 64 the uintptr_t addition wraps
and the result is smaller than the address (see the counterexample). -/
theorem c6_align_smallest_multiple (p a : Nat) (ha : 0 < a) (haW : a ∣ W)
    (hp : p < W) (hnw : p + (a - p % a) % a < W) :
    p ≤ align p a ∧ a ∣ align p a ∧ ∀ q, a ∣ q → p ≤ q → align p a ≤ q := by
  have he : align p a = p + (a - p % a) % a := by
    rw [align_eq_exact p a ha haW hp]
    exact Nat.mod_eq_of_lt hnw
  refine ⟨?_, ?_, ?_⟩
  · rw [he]; omega
  · rw [he]; exact dvd_alignUp p a ha
  · intro q hq hpq
    rw [he]
    exact alignUp_least p a q ha hq hpq

/-- Counterexample to claim C6 as stated: at the largest uintptr_t address
and alignment 16 the round-up wraps modulo 2 ^ 64, align returns 0, and the
result is not greater than or equal to the address. -/
theorem c6_counterexample : ¬ (W - 1 ≤ align (W - 1) 16) := by decide

/-- Witness for C6 at address 21 and alignment 16: align returns the
smallest multiple of 16 that is at least 21. -/
theorem c6_witness :
    21 < W ∧ (0 : Nat) < 16 ∧ (16 : Nat) ∣ W ∧ 21 + (16 - 21 % 16) % 16 < W ∧
    (21 ≤ align 21 16 ∧ (16 : Nat) ∣ align 21 16 ∧
      ∀ q, 16 ∣ q → 21 ≤ q → align 21 16 ≤ q) :=
  ⟨by decide, by decide, by decide, by decide,
   c6_align_smallest_multiple 21 16 (by decide) (by decide) (by decide) (by decide)⟩

/-- Claim C7: restoring a checkpoint taken from the same arena with no
intervening allocation is a no-op: previous_offset and current_offset (the
whole arena value) are unchanged, and any next allocation returns exactly
what it would have returned without the checkpoint/restore pair. -/
theorem c7_checkpoint_restore_noop (a : Arena) :
    arena_restore (arena_create_checkpoint a) a = a ∧
    ∀ (mem : Nat → Nat) (size alignment : Nat),
      arena_alloc_align (arena_restore (arena_create_checkpoint a) a) mem size alignment
        = arena_alloc_align a mem size alignment := by
  constructor
  · rfl
  · intro mem size alignment
    rfl

/-- Claim C9: is_power_of_two classifies 0 as a power of two (the check
0 & (0 - 1) wraps to 0 & (2 ^ 64 - 1) = 0), even though 0 is not a power of
two; consequently the debug-build assertion in align accepts alignment 0
and the function returns normally instead of trapping. -/
theorem c9_zero_accepted_as_power_of_two :
    is_power_of_two 0 = true ∧ (¬ ∃ e : Nat, 2 ^ e = 0) ∧
    ∀ p : Nat, align_checked p 0 = some (align p 0) := by
  refine ⟨by decide, ?_, ?_⟩
  · rintro ⟨e, he⟩
    exact (Nat.two_pow_pos e).ne' he
  · intro p
    unfold align_checked
    rw [if_pos (by decide)]

/-- Claim C10: the capacity check computes offset + size in wrapping size_t
arithmetic.  From any arena state whose aligned offset is positive there is
a size for which the check passes and the call succeeds, setting
current_offset to (offset + size) mod W, although the exact sum
offset + size exceeds buffer_length. -/
theorem c10_capacity_check_wraps (a : Arena) (mem : Nat → Nat) (alignment : Nat)
    (hlen : a.buffer_length < W) (ho : 0 < allocOffset a alignment) :
    ∃ size : Nat,
      (arena_alloc_align a mem size alignment).1 = some (allocOffset a alignment) ∧
      (arena_alloc_align a mem size alignment).2.1.current_offset
        = (allocOffset a alignment + size) % W ∧
      a.buffer_length < allocOffset a alignment + size := by
  have holt := allocOffset_lt a alignment
  have hsum : (allocOffset a alignment + (W - allocOffset a alignment)) % W = 0 := by
    rw [W_eq] at *
    omega
  refine ⟨W - allocOffset a alignment, ?_, ?_, ?_⟩
  · unfold arena_alloc_align
    dsimp only
    rw [hsum, if_pos (Nat.zero_le _)]
  · unfold arena_alloc_align
    dsimp only
    rw [hsum, if_pos (Nat.zero_le _)]
  · rw [W_eq] at *
    omega

/-- Witness for C10: a 64-byte arena with cursor 5 at base 0 and alignment
16 has aligned offset 16; the produced size makes the wrapped check pass
while the exact sum exceeds 64. -/
theorem c10_witness :
    (Arena.mk 0 64 0 5).buffer_length < W ∧
    0 < allocOffset (Arena.mk 0 64 0 5) 16 ∧
    ∃ size : Nat,
      (arena_alloc_align (Arena.mk 0 64 0 5) (fun _ => 0) size 16).1
        = some (allocOffset (Arena.mk 0 64 0 5) 16) ∧
      (arena_alloc_align (Arena.mk 0 64 0 5) (fun _ => 0) size 16).2.1.current_offset
        = (allocOffset (Arena.mk 0 64 0 5) 16 + size) % W ∧
      (Arena.mk 0 64 0 5).buffer_length < allocOffset (Arena.mk 0 64 0 5) 16 + size :=
  ⟨by decide, by decide,
   c10_capacity_check_wraps _ (fun _ => 0) 16 (by decide) (by decide)⟩

/-! Claim C1: sequences of allocations. -/

/-- Runs a list of (size, alignment) requests through arena_alloc_align in
order, recording the (offset, size) region returned by each call; none if
any call returns NULL.  Buffer contents are irrelevant to offsets, so a
fixed memory is threaded. -/
def runAllocs : Arena → List (Nat × Nat) → Option (List (Nat × Nat) × Arena)
  | a, [] => some ([], a)
  | a, (size, alignment) :: rest =>
    match arena_alloc_align a (fun _ => 0) size alignment with
    | (some off, a2, _) =>
      match runAllocs a2 rest with
      | some (rs, af) => some ((off, size) :: rs, af)
      | none => none
    | (none, _, _) => none

/-- Ghost exact semantics: the region (start, size) list produced by a
request sequence starting from exact cursor c, in unbounded arithmetic. -/
def exactRegions (b : Nat) : Nat → List (Nat × Nat) → List (Nat × Nat)
  | _, [] => []
  | c, (size, alignment) :: rest =>
    (c + padOf b c alignment, size)
      :: exactRegions b (c + padOf b c alignment + size) rest

/-- Ghost exact semantics: the final cursor, in unbounded arithmetic.
Starting from cursor 0 this is the total aligned size (alignment padding
plus requested bytes) consumed by the sequence. -/
def exactFinal (b : Nat) : Nat → List (Nat × Nat) → Nat
  | c, [] => c
  | c, (size, alignment) :: rest =>
    exactFinal b (c + padOf b c alignment + size) rest

theorem exactFinal_mono (b : Nat) (reqs : List (Nat × Nat)) :
    ∀ c, c ≤ exactFinal b c reqs := by
  induction reqs with
  | nil =>
    intro c
    simp [exactFinal]
  | cons q rest ih =>
    intro c
    obtain ⟨size, alignment⟩ := q
    have := ih (c + padOf b c alignment + size)
    simp only [exactFinal]
    omega

theorem exactRegions_bounds (b : Nat) (reqs : List (Nat × Nat)) :
    ∀ c r, r ∈ exactRegions b c reqs →
      c ≤ r.1 ∧ r.1 + r.2 ≤ exactFinal b c reqs := by
  induction reqs with
  | nil =>
    intro c r hr
    simp [exactRegions] at hr
  | cons q rest ih =>
    intro c r hr
    obtain ⟨size, alignment⟩ := q
    simp only [exactRegions, List.mem_cons] at hr
    simp only [exactFinal]
    rcases hr with h | h
    · subst h
      have := exactFinal_mono b rest (c + padOf b c alignment + size)
      dsimp only
      omega
    · have := ih _ _ h
      omega

/-- Two (start, size) regions are disjoint: one ends no later than the
other begins. -/
def RegionsDisjoint (r s : Nat × Nat) : Prop :=
  r.1 + r.2 ≤ s.1 ∨ s.1 + s.2 ≤ r.1

theorem exactRegions_pairwise (b : Nat) (reqs : List (Nat × Nat)) :
    ∀ c, List.Pairwise RegionsDisjoint (exactRegions b c reqs) := by
  induction reqs with
  | nil =>
    intro c
    simp [exactRegions]
  | cons q rest ih =>
    intro c
    obtain ⟨size, alignment⟩ := q
    simp only [exactRegions]
    refine List.Pairwise.cons ?_ (ih _)
    intro r hr
    have := (exactRegions_bounds b rest _ r hr).1
    left
    dsimp only [RegionsDisjoint]
    omega

/-- Bridge between the wrapping implementation and the exact ghost
semantics: as long as the exact final cursor fits in the buffer (and the
buffer length is a size_t value), every request succeeds and the
implementation returns exactly the ghost regions and ghost final cursor. -/
theorem runAllocs_exact (b len : Nat) (hlen : len < W) :
    ∀ (reqs : List (Nat × Nat)), (∀ r ∈ reqs, 0 < r.2 ∧ r.2 ∣ W) →
    ∀ c prev, c ≤ len → exactFinal b c reqs ≤ len →
      ∃ pf, runAllocs ⟨b, len, prev, c⟩ reqs
        = some (exactRegions b c reqs, ⟨b, len, pf, exactFinal b c reqs⟩) := by
  intro reqs
  induction reqs with
  | nil =>
    intro _ c prev hc hf
    exact ⟨prev, by simp [runAllocs, exactRegions, exactFinal]⟩
  | cons q rest ih =>
    intro hva c prev hc hf
    obtain ⟨size, alignment⟩ := q
    have hq := hva (size, alignment) (List.mem_cons_self _ _)
    have hrest : ∀ r ∈ rest, 0 < r.2 ∧ r.2 ∣ W :=
      fun r hr => hva r (List.mem_cons_of_mem _ hr)
    have hmono := exactFinal_mono b rest (c + padOf b c alignment + size)
    simp only [exactFinal] at hf
    have hstep : c + padOf b c alignment + size ≤ len := by omega
    have halloc := alloc_succ b len prev c size alignment (fun _ => 0)
      hq.1 hq.2 (by omega) hlen hstep
    obtain ⟨pf, hrun⟩ := ih hrest (c + padOf b c alignment + size)
      (c + padOf b c alignment) (by omega) hf
    refine ⟨pf, ?_⟩
    simp only [runAllocs, halloc, hrun, exactRegions, exactFinal]

/-- Claim C1: from arena_init over a buffer of length len, a sequence of
allocation requests with power-of-two alignments whose total aligned size
(the exact final cursor: all alignment padding plus all requested bytes) is
at most the capacity succeeds entirely, and the returned regions, each
spanning its requested size from its returned start offset, are pairwise
disjoint and lie within the buffer: start plus size is at most
buffer_length. -/
theorem c1_allocations_disjoint_within_buffer (b len : Nat)
    (reqs : List (Nat × Nat)) (hlen : len < W)
    (hva : ∀ r ∈ reqs, 0 < r.2 ∧ r.2 ∣ W)
    (htotal : exactFinal b 0 reqs ≤ len) :
    ∃ regions afinal,
      runAllocs (arena_init b len) reqs = some (regions, afinal) ∧
      (∀ r ∈ regions, r.1 + r.2 ≤ len) ∧
      List.Pairwise RegionsDisjoint regions := by
  obtain ⟨pf, hrun⟩ := runAllocs_exact b len hlen reqs hva 0 0 (Nat.zero_le _) htotal
  refine ⟨exactRegions b 0 reqs, _, hrun, ?_, exactRegions_pairwise b reqs 0⟩
  intro r hr
  have := (exactRegions_bounds b reqs 0 r hr).2
  omega

/-- Witness for C1: two 16-aligned requests of 10 and 5 bytes in a 64-byte
buffer; total aligned size 21 fits, both regions are in bounds and
disjoint. -/
theorem c1_witness :
    64 < W ∧
    (∀ r ∈ [((10 : Nat), (16 : Nat)), (5, 16)], 0 < r.2 ∧ r.2 ∣ W) ∧
    exactFinal 0 0 [(10, 16), (5, 16)] ≤ 64 ∧
    ∃ regions afinal,
      runAllocs (arena_init 0 64) [(10, 16), (5, 16)] = some (regions, afinal) ∧
      (∀ r ∈ regions, r.1 + r.2 ≤ 64) ∧
      List.Pairwise RegionsDisjoint regions :=
  ⟨by decide, by decide, by decide,
   c1_allocations_disjoint_within_buffer 0 64 [(10, 16), (5, 16)]
     (by decide) (by decide) (by decide)⟩

/-! Claim C5: the cursor invariant across operation sequences. -/

/-- One interface call against an arena.  arena_init starts a sequence and
is not an op.  restore i restores the i-th checkpoint taken from this arena
since init (in creation order); an out-of-range index is a no-op in the
model, since a C caller can only restore checkpoints that were actually
created. -/
inductive ArenaOp where
  | allocAlign (size alignment : Nat)
  | alloc (size : Nat)
  | checkpoint
  | free
  | restore (i : Nat)

/-- An arena together with the checkpoints taken from it since init. -/
structure ArenaState where
  arena : Arena
  checkpoints : List Arena_Checkpoint

def initState (buffer buffer_length : Nat) : ArenaState :=
  { arena := arena_init buffer buffer_length, checkpoints := [] }

def stepOp (s : ArenaState) : ArenaOp → ArenaState
  | .allocAlign size alignment =>
    { s with arena := (arena_alloc_align s.arena (fun _ => 0) size alignment).2.1 }
  | .alloc size =>
    { s with arena := (arena_alloc s.arena (fun _ => 0) size).2.1 }
  | .checkpoint =>
    { s with checkpoints := s.checkpoints ++ [arena_create_checkpoint s.arena] }
  | .free => { s with arena := arena_free s.arena }
  | .restore i =>
    match s.checkpoints[i]? with
    | some cp => { s with arena := arena_restore cp s.arena }
    | none => s

def runOps (s : ArenaState) (ops : List ArenaOp) : ArenaState :=
  ops.foldl stepOp s

/-- An allocation request is overflow-free at a state when the offset the
code will compute plus the requested size does not wrap around size_t. -/
def okOp (s : ArenaState) : ArenaOp → Bool
  | .allocAlign size alignment => decide (allocOffset s.arena alignment + size < W)
  | .alloc size => decide (allocOffset s.arena DEFAULT_ALIGNMENT + size < W)
  | _ => true

def okTrace : ArenaState → List ArenaOp → Bool
  | _, [] => true
  | s, op :: ops => okOp s op && okTrace (stepOp s op) ops

/-- The cursor invariant of the spec for one arena value. -/
def ArenaInv (a : Arena) : Prop :=
  a.previous_offset ≤ a.current_offset ∧ a.current_offset ≤ a.buffer_length

instance (a : Arena) : Decidable (ArenaInv a) := by
  unfold ArenaInv
  infer_instance

/-- The invariant extended to the saved checkpoints, any of which a restore
may write back into the arena. -/
def StateInv (s : ArenaState) : Prop :=
  ArenaInv s.arena ∧
  ∀ cp ∈ s.checkpoints,
    cp.previous_offset ≤ cp.current_offset ∧
    cp.current_offset ≤ s.arena.buffer_length

theorem alloc_buffer_length (a : Arena) (mem : Nat → Nat) (size alignment : Nat) :
    (arena_alloc_align a mem size alignment).2.1.buffer_length = a.buffer_length := by
  unfold arena_alloc_align
  dsimp only
  split <;> rfl

theorem stepOp_buffer_length (s : ArenaState) (op : ArenaOp) :
    (stepOp s op).arena.buffer_length = s.arena.buffer_length := by
  cases op with
  | allocAlign size alignment => exact alloc_buffer_length ..
  | alloc size => exact alloc_buffer_length ..
  | checkpoint => rfl
  | free => rfl
  | restore i =>
    unfold stepOp
    cases h : s.checkpoints[i]? <;> simp [h, arena_restore]

/-- Preservation of the cursor invariant by one overflow-free allocation. -/
theorem alloc_inv (a : Arena) (mem : Nat → Nat) (size alignment : Nat)
    (hok : allocOffset a alignment + size < W) (hinv : ArenaInv a) :
    ArenaInv (arena_alloc_align a mem size alignment).2.1 := by
  unfold arena_alloc_align
  dsimp only
  by_cases hc : (allocOffset a alignment + size) % W ≤ a.buffer_length
  · rw [if_pos hc]
    have hm : (allocOffset a alignment + size) % W = allocOffset a alignment + size :=
      Nat.mod_eq_of_lt hok
    rw [hm] at hc
    unfold ArenaInv
    dsimp only
    rw [hm]
    omega
  · rw [if_neg hc]
    exact hinv

theorem stepOp_inv (s : ArenaState) (op : ArenaOp)
    (hok : okOp s op = true) (hinv : StateInv s) :
    StateInv (stepOp s op) := by
  obtain ⟨hA, hC⟩ := hinv
  cases op with
  | allocAlign size alignment =>
    constructor
    · exact alloc_inv _ _ _ _ (by simpa [okOp] using hok) hA
    · intro cp hcp
      simp only [stepOp] at hcp ⊢
      rw [alloc_buffer_length]
      exact hC cp hcp
  | alloc size =>
    constructor
    · exact alloc_inv _ _ _ _ (by simpa [okOp] using hok) hA
    · intro cp hcp
      simp only [stepOp, arena_alloc] at hcp ⊢
      rw [alloc_buffer_length]
      exact hC cp hcp
  | checkpoint =>
    constructor
    · exact hA
    · intro cp hcp
      simp only [stepOp, List.mem_append, List.mem_singleton] at hcp
      rcases hcp with h | h
      · exact hC cp h
      · subst h
        exact ⟨hA.1, hA.2⟩
  | free =>
    refine ⟨⟨Nat.le_refl 0, Nat.zero_le _⟩, ?_⟩
    intro cp hcp
    simp only [stepOp] at hcp ⊢
    exact hC cp hcp
  | restore i =>
    cases h : s.checkpoints[i]? with
    | none =>
      simp only [stepOp, h]
      exact ⟨hA, hC⟩
    | some cp =>
      have hcp := hC cp (List.getElem?_mem h)
      simp only [stepOp, h]
      exact ⟨⟨hcp.1, hcp.2⟩, fun cq hq => hC cq hq⟩

theorem runOps_inv (ops : List ArenaOp) :
    ∀ s, StateInv s → okTrace s ops = true → StateInv (runOps s ops) := by
  induction ops with
  | nil =>
    intro s h _
    exact h
  | cons op ops ih =>
    intro s h hok
    simp only [okTrace, Bool.and_eq_true] at hok
    exact ih (stepOp s op) (stepOp_inv s op hok.1 h) hok.2

/-- Claim C5 (amended): after arena_init, every sequence of interface
operations in which no allocation wraps size_t (the computed aligned offset
plus the requested size stays below 2 ^ 64) preserves the invariant
previous_offset less-or-equal current_offset less-or-equal buffer_length,
for the arena and for every checkpoint that a restore can write back.  The
statement quantifies over all traces, hence over every prefix, so the
invariant holds between any two operations. -/
theorem c5_cursor_invariant (buffer buffer_length : Nat) (ops : List ArenaOp)
    (hok : okTrace (initState buffer buffer_length) ops = true) :
    StateInv (runOps (initState buffer buffer_length) ops) := by
  apply runOps_inv ops _ _ hok
  constructor
  · exact ⟨Nat.le_refl 0, Nat.zero_le _⟩
  · intro cp hcp
    simp [initState] at hcp

/-- Counterexample to claim C5 as stated: the request size 2 ^ 64 - 16 is a
legal size_t value; after arena_init over 64 bytes, an allocation of 10
bytes and then one of 2 ^ 64 - 16 bytes, the second capacity check wraps to
0, the call succeeds, and the arena is left with previous_offset = 16 above
current_offset = 0, violating the invariant. -/
theorem c5_counterexample :
    ¬ ArenaInv (runOps (initState 0 64)
        [ArenaOp.alloc 10, ArenaOp.alloc (W - 16)]).arena := by decide

/-- Witness for C5: a trace of an allocation, a checkpoint, another
allocation, a restore of that checkpoint, and a reset is overflow-free and
ends (as every prefix does) in a state satisfying the invariant. -/
theorem c5_witness :
    okTrace (initState 0 64)
      [ArenaOp.alloc 10, ArenaOp.checkpoint, ArenaOp.alloc 5,
       ArenaOp.restore 0, ArenaOp.free] = true ∧
    StateInv (runOps (initState 0 64)
      [ArenaOp.alloc 10, ArenaOp.checkpoint, ArenaOp.alloc 5,
       ArenaOp.restore 0, ArenaOp.free]) :=
  ⟨by decide, c5_cursor_invariant 0 64 _ (by decide)⟩

/-! Claim C8: the concrete scenario of the spec. -/

/-- Arbitrary nonzero initial contents for the scenario buffer. -/
def c8mem : Nat → Nat := fun _ => 7

/-- Scenario buffer contents after the first two allocations. -/
def c8mem2 : Nat → Nat := memset (memset c8mem 0 10) 16 5

/-- Claim C8: over a 64-byte buffer whose base address b is 16-byte aligned
(as a buffer obtained from malloc is) and with the default alignment 16:
allocate(10) returns offset 0 and the cursor becomes 10; allocate(5)
returns offset 16 and the cursor becomes 21; a checkpoint taken here holds
(previous = 16, current = 21); allocate(50) fails leaving offsets (16, 21);
restoring the checkpoint leaves offsets (16, 21); allocate(40) fails
because 21 rounds up to 32 and 32 + 40 = 72 exceeds 64; allocate(30)
succeeds at offset 32 with the cursor becoming 62. -/
theorem c8_concrete_scenario (b : Nat) (hb : 16 ∣ b) :
    arena_alloc (arena_init b 64) c8mem 10
      = (some 0, Arena.mk b 64 0 10, memset c8mem 0 10) ∧
    arena_alloc (Arena.mk b 64 0 10) (memset c8mem 0 10) 5
      = (some 16, Arena.mk b 64 16 21, c8mem2) ∧
    arena_create_checkpoint (Arena.mk b 64 16 21) = Arena_Checkpoint.mk 16 21 ∧
    arena_alloc (Arena.mk b 64 16 21) c8mem2 50
      = (none, Arena.mk b 64 16 21, c8mem2) ∧
    arena_restore (Arena_Checkpoint.mk 16 21) (Arena.mk b 64 16 21)
      = Arena.mk b 64 16 21 ∧
    arena_alloc (Arena.mk b 64 16 21) c8mem2 40
      = (none, Arena.mk b 64 16 21, c8mem2) ∧
    arena_alloc (Arena.mk b 64 16 21) c8mem2 30
      = (some 32, Arena.mk b 64 32 62, memset c8mem2 32 30) := by
  obtain ⟨k, rfl⟩ := hb
  have h16 : (0 : Nat) < 16 := by omega
  have h16W : (16 : Nat) ∣ W := by decide
  have h64W : 64 < W := by rw [W_eq]; omega
  have hpad0 : padOf (16 * k) 0 16 = 0 := by unfold padOf; omega
  have hpad10 : padOf (16 * k) 10 16 = 6 := by unfold padOf; omega
  have hpad21 : padOf (16 * k) 21 16 = 11 := by unfold padOf; omega
  have h21W : 21 < W := by rw [W_eq]; omega
  refine ⟨?_, ?_, rfl, ?_, rfl, ?_, ?_⟩
  · have h := alloc_succ (16 * k) 64 0 0 10 16 c8mem h16 h16W W_pos h64W
      (by rw [hpad0]; omega)
    show arena_alloc_align (Arena.mk (16 * k) 64 0 0) c8mem 10 16 = _
    rw [h, hpad0]
  · have h := alloc_succ (16 * k) 64 0 10 5 16 (memset c8mem 0 10) h16 h16W
      (by rw [W_eq]; omega) h64W (by rw [hpad10]; omega)
    show arena_alloc_align (Arena.mk (16 * k) 64 0 10) (memset c8mem 0 10) 5 16 = _
    rw [h, hpad10]
    norm_num [c8mem2]
  · have h := alloc_fail (16 * k) 64 16 21 50 16 c8mem2 h16 h16W h21W
      (by rw [hpad21, W_eq]; omega) (by rw [hpad21]; omega)
    show arena_alloc_align (Arena.mk (16 * k) 64 16 21) c8mem2 50 16 = _
    exact h
  · have h := alloc_fail (16 * k) 64 16 21 40 16 c8mem2 h16 h16W h21W
      (by rw [hpad21, W_eq]; omega) (by rw [hpad21]; omega)
    show arena_alloc_align (Arena.mk (16 * k) 64 16 21) c8mem2 40 16 = _
    exact h
  · have h := alloc_succ (16 * k) 64 16 21 30 16 c8mem2 h16 h16W h21W h64W
      (by rw [hpad21]; omega)
    show arena_alloc_align (Arena.mk (16 * k) 64 16 21) c8mem2 30 16 = _
    rw [h, hpad21]

/-- Witness for C8 at the concrete 16-byte-aligned buffer base 0. -/
theorem c8_witness :
    (16 : Nat) ∣ 0 ∧
    (arena_alloc (arena_init 0 64) c8mem 10
       = (some 0, Arena.mk 0 64 0 10, memset c8mem 0 10) ∧
     arena_alloc (Arena.mk 0 64 0 10) (memset c8mem 0 10) 5
       = (some 16, Arena.mk 0 64 16 21, c8mem2) ∧
     arena_create_checkpoint (Arena.mk 0 64 16 21) = Arena_Checkpoint.mk 16 21 ∧
     arena_alloc (Arena.mk 0 64 16 21) c8mem2 50
       = (none, Arena.mk 0 64 16 21, c8mem2) ∧
     arena_restore (Arena_Checkpoint.mk 16 21) (Arena.mk 0 64 16 21)
       = Arena.mk 0 64 16 21 ∧
     arena_alloc (Arena.mk 0 64 16 21) c8mem2 40
       = (none, Arena.mk 0 64 16 21, c8mem2) ∧
     arena_alloc (Arena.mk 0 64 16 21) c8mem2 30
       = (some 32, Arena.mk 0 64 32 62, memset c8mem2 32 30)) :=
  ⟨by decide, c8_concrete_scenario 0 (by decide)⟩

end ArenaSpec
